import Mathlib

/-!
Verification development for the Clarity news-clustering core (data.py).

The definitions below are a shallow embedding of the pure computational
core of src/data.py:

* `extract_keywords`      — data.py lines 87-114
* `get_source_bias`       — data.py lines 81-85 (with `SOURCE_BIAS_MAP`)
* `fetch_real_news_pure`  — the clustering pass of `fetch_real_news`,
  data.py lines 148-276, with the network fetch and the on-disk cache
  stripped away: the already-fetched article list is the input.
* `get_articles_by_bias`  — data.py lines 302-313

Python dictionaries coming from the news API are modelled as structures
with `Option` fields: `none` models a missing key (or a `None` value
where the code only ever observes the two through falsiness).  The one
place where the code distinguishes a missing key from a `None` value is
the raw access `other_article[ "url" ]` in the related-article scan, so
the `url` field is `Option (Option String)`: `none` models the key being
absent (raw access raises `KeyError`), `some none` models a `None`
value, `some (some s)` a string.  Fallible code returns `Except`.
-/

/-- The lowercase stop-word set of `extract_keywords`, data.py lines 92-94. -/
def stop_words : List String :=
  ["the", "a", "an", "and", "or", "but", "in", "on", "at", "to", "for",
   "of", "with", "by", "from", "as", "is", "was", "are", "were", "been",
   "have", "has", "had", "will", "would", "could", "should", "may", "might"]

/-- Modelled from the spec: the stop-word set of section 4.1, which extends the
set found in the code with the words "be", "do", "says", "said", "new", "news".
It is used only to compare the behaviour of the code against the wording of
the spec; the code itself uses `stop_words`. -/
def specStopWords : List String :=
  ["the", "a", "an", "and", "or", "but", "in", "on", "at", "to", "for",
   "of", "with", "by", "from", "as", "is", "was", "are", "were", "been",
   "have", "has", "had", "will", "would", "could", "should", "may", "might",
   "be", "do", "says", "said", "new", "news"]

/-- Python `text.lower()`, written over the character list so that it reduces
inside the kernel. -/
def lowerStr (s : String) : String :=
  String.mk (s.toList.map Char.toLower)

/-- Python `word.strip(".,!?;:\x22")`: remove the listed punctuation characters
from both ends of the word. -/
def stripPy (w : String) : String :=
  let punct : List Char := ['.', ',', '!', '?', ';', ':', '"']
  String.mk
    (((w.toList.dropWhile (fun c => punct.contains c)).reverse.dropWhile
      (fun c => punct.contains c)).reverse)

/-- Worker for `pySplit`: the accumulator holds the current word in reverse. -/
def splitWsGo : List Char → List Char → List String
  | [], cur => if cur.isEmpty then [] else [String.mk cur.reverse]
  | c :: rest, cur =>
    if c.isWhitespace then
      if cur.isEmpty then splitWsGo rest []
      else String.mk cur.reverse :: splitWsGo rest []
    else splitWsGo rest (c :: cur)

/-- Python `text.split()`: split on runs of whitespace, discarding empty pieces. -/
def pySplit (s : String) : List String :=
  splitWsGo s.toList []

/-- Python `word.isalpha()`: nonempty and every character alphabetic. -/
def isAlphaStr (w : String) : Bool :=
  w != "" && w.toList.all Char.isAlpha

/-- The per-token filter of `extract_keywords`, data.py line 101:
`len(word) > 3 and word not in stop_words and word.isalpha()`. -/
def keepWord (w : String) : Bool :=
  decide (3 < w.length) && !(decide (w ∈ stop_words)) && isAlphaStr w

/-- The candidate keyword list of `extract_keywords`, data.py lines 90-102:
lowercase the concatenated text, split on whitespace, strip punctuation,
keep the tokens passing `keepWord`.  A missing description is coerced to
the empty string (`description or ""`). -/
def filteredTokens (title : String) (description : Option String) : List String :=
  let text := lowerStr (title ++ " " ++ description.getD "")
  ((pySplit text).map stripPy).filter keepWord

/-- The dedup-and-cap loop of `extract_keywords`, data.py lines 105-112:
walk the candidate tokens, keep each first occurrence, stop as soon as four
tokens have been kept.  The accumulator holds the kept tokens in reverse. -/
def uniqGo : List String → List String → List String
  | [], acc => acc.reverse
  | k :: rest, acc =>
    if k ∈ acc then uniqGo rest acc
    else if 4 ≤ acc.length + 1 then (k :: acc).reverse
    else uniqGo rest (k :: acc)

/-- Embedding of `extract_keywords(title, description)`, data.py lines 87-114. -/
def extract_keywords (title : String) (description : Option String) : List String :=
  uniqGo (filteredTokens title description) []

/-- Index of the first occurrence of a string in a list (length of the list
when absent).  Used to state the first-occurrence-order property. -/
def firstIdx : List String → String → Nat
  | [], _ => 0
  | x :: xs, a => if x = a then 0 else firstIdx xs a + 1

example : extract_keywords "says" none = ["says"] := by rfl
example : extract_keywords "Senate Passes Budget Bill" (some "") =
    ["senate", "passes", "budget", "bill"] := by rfl
example : extract_keywords "Senate Passes Budget Bill Today" none =
    ["senate", "passes", "budget", "bill"] := by rfl

/-- The source-to-bias table `SOURCE_BIAS_MAP`, data.py lines 15-50. -/
def SOURCE_BIAS_MAP : List (String × String) :=
  [("cnn", "left"), ("msnbc", "left"), ("the-guardian-uk", "left"),
   ("the-huffington-post", "left"), ("politico", "left"),
   ("the-washington-post", "left"), ("nbc-news", "left"), ("buzzfeed", "left"),
   ("vice-news", "left"), ("the-new-york-times", "left"),
   ("bbc-news", "center"), ("reuters", "center"), ("associated-press", "center"),
   ("axios", "center"), ("bloomberg", "center"), ("the-hill", "center"),
   ("usa-today", "center"), ("npr", "center"), ("abc-news", "center"),
   ("cbs-news", "center"),
   ("fox-news", "right"), ("the-wall-street-journal", "right"),
   ("the-american-conservative", "right"), ("national-review", "right"),
   ("the-washington-times", "right"), ("daily-mail", "right"),
   ("new-york-post", "right"), ("newsmax", "right"), ("breitbart-news", "right")]

/-- Embedding of `get_source_bias(source_id)`, data.py lines 81-85.  The
argument models the value of `article.get("source", ...).get("id", ...)`:
`none` covers a missing or `None` identifier (falsy, like the empty string),
everything falsy resolves to center; otherwise the lowercased identifier is
looked up with default center. -/
def get_source_bias (sourceId : Option String) : String :=
  match sourceId with
  | none => "center"
  | some s => if s = "" then "center" else (SOURCE_BIAS_MAP.lookup (lowerStr s)).getD "center"

/-- A raw article record as delivered by the news API, data.py `all_articles`.
Fields are `Option`s because the Python code reads them with `.get`; the `url`
field is doubly optional because `fetch_real_news` also reads it with a raw
subscript (`other_article["url"]`, data.py line 194), which distinguishes a
missing key (`none`, raises `KeyError`) from a `None` value (`some none`).
`publishedAt` is carried only because it takes part in the dictionary
equality test `other_article == article` at data.py line 180. -/
structure RawArticle where
  title : Option String
  url : Option (Option String)
  sourceId : Option String
  sourceName : Option String
  description : Option String
  publishedAt : Option String
  deriving BEq, DecidableEq, Repr

/-- An article entry of an emitted issue, data.py lines 171-176 and 190-195:
`{title, source, bias, url}`.  The `url` is an `Option` because the inner
scan copies `other_article["url"]` unchecked, which may be `None`. -/
structure Article where
  title : String
  source : String
  bias : String
  url : Option String
  deriving BEq, DecidableEq, Repr

/-- An emitted issue record, data.py lines 206-211 and 231-243:
`{id, headline, keywords, articles}`. -/
structure Issue where
  id : Nat
  headline : String
  keywords : List String
  articles : List Article
  deriving BEq, DecidableEq, Repr

/-- The key list of the issue dictionary literals built by `fetch_real_news`
(data.py lines 206-211 and 231-243): both literals carry exactly the keys
`id`, `headline`, `keywords` and `articles`, and no further key is ever
inserted (the fallback pass appends to `issue["articles"]` only). -/
def Issue.keys (_ : Issue) : List String :=
  ["id", "headline", "keywords", "articles"]

/-- A default issue value used only to state concrete evaluations. -/
def emptyIssue : Issue :=
  { id := 0, headline := "", keywords := [], articles := [] }

/-- Python truthiness of an optional string: a missing key, a `None` value and
the empty string are falsy. -/
def truthyS : Option String → Bool
  | none => false
  | some s => s != ""

/-- Python truthiness of the doubly optional `url` field. -/
def truthyU : Option (Option String) → Bool
  | some (some s) => s != ""
  | _ => false

/-- The record guard of data.py lines 152-154 and 222-223:
`article.get("title")` and `article.get("url")` must both be truthy. -/
def validRecord (a : RawArticle) : Bool :=
  truthyS a.title && truthyU a.url

/-- Cardinality of the intersection of two Python sets of strings, each given
by a representing list: the number of distinct members of the first list that
also occur in the second. -/
def interSize (xs ys : List String) : Nat :=
  (xs.dedup.filter (fun x => decide (x ∈ ys))).length

/-- The near-duplicate title test of data.py line 158: some already-seen
title word set shares more than 3 words with the first five words of the
candidate title. -/
def similarSeen (titleWords : List String) (seen : List (List String)) : Bool :=
  seen.any (fun s => decide (3 < interSize titleWords s))

/-- The headline truncation of data.py lines 208 and 233:
`title[:60] + "..."` when the title is longer than 60 characters. -/
def mkHeadline (title : String) : String :=
  if 60 < title.length then String.mk (title.toList.take 60) ++ "..." else title

/-- The related-article entry appended at data.py lines 190-195: title,
source display name (default `Unknown`), the precomputed bias of the other
record, and the raw value of its `url` key. -/
def mkRelArticle (other : RawArticle) (u : Option String) : Article :=
  { title := other.title.getD "", source := other.sourceName.getD "Unknown",
    bias := get_source_bias other.sourceId, url := u }

/-- The seed entry of a cluster, data.py lines 171-176 (also the single real
entry of a synthetic fallback issue, data.py lines 236-241). -/
def seedArticle (a : RawArticle) : Article :=
  { title := a.title.getD "", source := a.sourceName.getD "Unknown Source",
    bias := get_source_bias a.sourceId, url := a.url.getD none }

/-- An issue as assembled at data.py lines 206-211 and 231-243: sequential
id, truncated headline, the seed keywords capped at four, and the given
article list. -/
def mkIssue (issueId : Nat) (a : RawArticle) (arts : List Article) : Issue :=
  { id := issueId, headline := mkHeadline (a.title.getD ""),
    keywords := (extract_keywords (a.title.getD "") a.description).take 4,
    articles := arts }

/-- The related-article scan of data.py lines 179-201: walk `all_articles`,
skip records equal to the seed, and append every record that has a different
bias, a truthy title and at least two extracted keywords in common with the
seed; after an append, stop once the collected list has at least three
articles covering at least three biases.  The raw subscript
`other_article["url"]` raises `KeyError` when the key is absent. -/
def scanRelated (seed : RawArticle) (bias : String) (keywords : List String) :
    List RawArticle → List Article → Except String (List Article)
  | [], related => Except.ok related
  | other :: rest, related =>
    if other == seed then scanRelated seed bias keywords rest related
    else if get_source_bias other.sourceId != bias && truthyS other.title then
      if 2 ≤ interSize keywords (extract_keywords (other.title.getD "") other.description) then
        match other.url with
        | none => Except.error "KeyError: url"
        | some u =>
          if 3 ≤ (related ++ [mkRelArticle other u]).length &&
              3 ≤ (((related ++ [mkRelArticle other u]).map Article.bias).dedup).length then
            Except.ok (related ++ [mkRelArticle other u])
          else scanRelated seed bias keywords rest (related ++ [mkRelArticle other u])
      else scanRelated seed bias keywords rest related
    else scanRelated seed bias keywords rest related

/-- The main clustering loop of data.py lines 152-217: for each valid record
not near-duplicating a seen title, record its title words, collect related
articles, and emit an issue whenever the collected articles span at least two
biases; stop after ten issues.  Returns the issue list together with the next
issue identifier (the loop of the synthetic pass continues the numbering). -/
def mainLoop (allArts : List RawArticle) :
    List RawArticle → List (List String) → Nat → List Issue →
    Except String (List Issue × Nat)
  | [], _, issueId, issues => Except.ok (issues, issueId)
  | a :: rest, seen, issueId, issues =>
    if validRecord a then
      if similarSeen ((pySplit (lowerStr (a.title.getD ""))).take 5).dedup seen then
        mainLoop allArts rest seen issueId issues
      else
        match scanRelated a (get_source_bias a.sourceId)
            (extract_keywords (a.title.getD "") a.description) allArts [seedArticle a] with
        | Except.error e => Except.error e
        | Except.ok related =>
          if 2 ≤ ((related.map Article.bias).dedup).length then
            if 10 ≤ (issues ++ [mkIssue issueId a (related.take 6)]).length then
              Except.ok (issues ++ [mkIssue issueId a (related.take 6)], issueId + 1)
            else
              mainLoop allArts rest ((pySplit (lowerStr (a.title.getD ""))).dedup :: seen)
                (issueId + 1) (issues ++ [mkIssue issueId a (related.take 6)])
          else
            mainLoop allArts rest ((pySplit (lowerStr (a.title.getD ""))).dedup :: seen)
              issueId issues
    else mainLoop allArts rest seen issueId issues

/-- A synthetic placeholder article of the fallback pass, data.py
lines 246-266. -/
def placeholderArticle (label : String) (topic : String) (source : String)
    (bias : String) (url : Option String) : Article :=
  { title := "[" ++ label ++ " perspective on: " ++ topic ++ "]",
    source := source, bias := bias, url := url }

/-- The placeholder topic, data.py line 248: the first seed keyword, or the
literal `this topic` when the seed has no keywords. -/
def topicOf (a : RawArticle) : String :=
  (extract_keywords (a.title.getD "") a.description).headD "this topic"

/-- The article list of a synthetic fallback issue, data.py lines 235-266:
the real seed entry followed by a placeholder for every bias label other than
the bias of the seed, all sharing the URL of the seed. -/
def fallbackArticles (a : RawArticle) : List Article :=
  [seedArticle a]
  ++ (if get_source_bias a.sourceId != "left" then
        [placeholderArticle "Left" (topicOf a) "Left-leaning Source" "left" (a.url.getD none)]
      else [])
  ++ (if get_source_bias a.sourceId != "center" then
        [placeholderArticle "Balanced" (topicOf a) "Centrist Source" "center" (a.url.getD none)]
      else [])
  ++ (if get_source_bias a.sourceId != "right" then
        [placeholderArticle "Right" (topicOf a) "Right-leaning Source" "right" (a.url.getD none)]
      else [])

/-- A synthetic fallback issue, data.py lines 231-266. -/
def fallbackIssue (issueId : Nat) (a : RawArticle) : Issue :=
  mkIssue issueId a (fallbackArticles a)

/-- The synthetic fallback pass of data.py lines 220-272: for each of the
leading valid records, build a single-article issue and append placeholder
articles for every bias other than the bias of the seed; stop once eight
issues exist in total. -/
def fallbackLoop : List RawArticle → Nat → List Issue → List Issue
  | [], _, issues => issues
  | a :: rest, issueId, issues =>
    if validRecord a then
      if 8 ≤ (issues ++ [fallbackIssue issueId a]).length then issues ++ [fallbackIssue issueId a]
      else fallbackLoop rest (issueId + 1) (issues ++ [fallbackIssue issueId a])
    else fallbackLoop rest issueId issues

/-- The pure clustering core of `fetch_real_news`, data.py lines 148-276:
the main clustering loop over the fetched article list, followed by the
synthetic fallback pass over the first fifteen records when fewer than five
issues were produced.  The network fetch and the cache are stripped; a
`KeyError` raised inside the pass surfaces as `Except.error` (the enclosing
handler of `fetch_real_news` catches it and substitutes the static fallback
issue list). -/
def fetch_real_news_pure (allArts : List RawArticle) : Except String (List Issue) :=
  match mainLoop allArts allArts [] 1 [] with
  | Except.error e => Except.error e
  | Except.ok (issues, issueId) =>
    if issues.length < 5 then Except.ok (fallbackLoop (allArts.take 15) issueId issues)
    else Except.ok issues

/-- An issue as seen by the bias filter: the Python dictionary may in
principle lack the `articles` key, which the raw subscript at data.py
line 304 turns into a `KeyError`. -/
structure BFIssue where
  articles : Option (List Article)
  deriving Repr

/-- Embedding of `get_articles_by_bias(issue, bias_preference)`, data.py
lines 302-313. -/
def get_articles_by_bias (issue : BFIssue) (bias_preference : Int) :
    Except String (List Article) :=
  match issue.articles with
  | none => Except.error "KeyError: articles"
  | some articles =>
    if bias_preference = -1 then
      Except.ok (articles.filter (fun a => ["left", "center"].contains a.bias))
    else if bias_preference = 1 then
      Except.ok (articles.filter (fun a => ["right", "center"].contains a.bias))
    else
      Except.ok articles

/-- The two-record scenario batch of spec section 8: a left and a right
report on the same story, with distinct URLs and titles sharing four
keywords. -/
def scenarioBatch : List RawArticle :=
  [{ title := some "Senate Passes Budget Bill", url := some (some "u1"),
     sourceId := some "cnn", sourceName := some "CNN",
     description := some "", publishedAt := none },
   { title := some "Senate Passes Budget Bill Today", url := some (some "u2"),
     sourceId := some "fox-news", sourceName := some "Fox News",
     description := some "", publishedAt := none }]

/-- A batch of two records with the same URL `u1` but sufficiently different
titles (first-five-word overlap of 2): both survive every dedup step. -/
def c5batch : List RawArticle :=
  [{ title := some "alpha bravo charlie delta", url := some (some "u1"),
     sourceId := some "cnn", sourceName := some "CNN",
     description := none, publishedAt := none },
   { title := some "alpha bravo echo foxtrot", url := some (some "u1"),
     sourceId := some "fox-news", sourceName := some "Fox News",
     description := none, publishedAt := none }]

/-- A batch whose second record has a non-empty title, two keywords in common
with the first record, a different bias, and no `url` key at all: the
related-article scan dereferences its missing `url`. -/
def c9batch : List RawArticle :=
  [{ title := some "alpha bravo charlie delta", url := some (some "u1"),
     sourceId := some "cnn", sourceName := some "CNN",
     description := none, publishedAt := none },
   { title := some "alpha bravo echo zulu", url := none,
     sourceId := some "fox-news", sourceName := some "Fox News",
     description := none, publishedAt := none }]

/-- A batch in which every record lacks a non-empty title or URL. -/
def malformedBatch : List RawArticle :=
  [{ title := none, url := none, sourceId := none, sourceName := none,
     description := none, publishedAt := none },
   { title := some "", url := some (some "u"), sourceId := none, sourceName := none,
     description := none, publishedAt := none },
   { title := some "a valid looking title here", url := some none, sourceId := none,
     sourceName := none, description := none, publishedAt := none }]

/-! Helper lemmas. -/

theorem headD_mem {α : Type} (l : List α) (d : α) (h : l ≠ []) : l.headD d ∈ l := by
  cases l with
  | nil => exact absurd rfl h
  | cons x xs => exact List.mem_cons_self x xs

theorem two_mem_le_length {α : Type} (l : List α) (x y : α)
    (hx : x ∈ l) (hy : y ∈ l) (hxy : x ≠ y) : 2 ≤ l.length := by
  cases l with
  | nil => cases hx
  | cons a t =>
    cases t with
    | nil =>
      rw [List.mem_singleton] at hx hy
      exact absurd (hx.trans hy.symm) hxy
    | cons b t' => simp [Nat.succ_le_succ, Nat.succ_le_succ_iff]

theorem two_bias_le_dedup (arts : List Article) (x y : Article)
    (hx : x ∈ arts) (hy : y ∈ arts) (h : x.bias ≠ y.bias) :
    2 ≤ ((arts.map Article.bias).dedup).length :=
  two_mem_le_length _ x.bias y.bias
    (List.mem_dedup.mpr (List.mem_map_of_mem Article.bias hx))
    (List.mem_dedup.mpr (List.mem_map_of_mem Article.bias hy)) h

theorem firstIdx_append_left (l₁ l₂ : List String) (a : String) (h : a ∈ l₁) :
    firstIdx (l₁ ++ l₂) a = firstIdx l₁ a := by
  induction l₁ with
  | nil => cases h
  | cons x xs ih =>
    by_cases hx : x = a
    · simp [firstIdx, hx]
    · have ha : a ∈ xs := by
        cases List.mem_cons.mp h with
        | inl he => exact absurd he.symm hx
        | inr hm => exact hm
      simp [firstIdx, hx, ih ha]

theorem firstIdx_append_right (l₁ l₂ : List String) (a : String) (h : a ∉ l₁) :
    firstIdx (l₁ ++ l₂) a = l₁.length + firstIdx l₂ a := by
  induction l₁ with
  | nil => simp [firstIdx]
  | cons x xs ih =>
    have hx : ¬ x = a := fun he => h (he ▸ List.mem_cons_self x xs)
    have hxs : a ∉ xs := fun hm => h (List.mem_cons_of_mem x hm)
    simp [firstIdx, hx, ih hxs]
    omega

theorem firstIdx_lt_length (l : List String) (a : String) (h : a ∈ l) :
    firstIdx l a < l.length := by
  induction l with
  | nil => cases h
  | cons x xs ih =>
    by_cases hx : x = a
    · simp [firstIdx, hx]
    · have ha : a ∈ xs := by
        cases List.mem_cons.mp h with
        | inl he => exact absurd he.symm hx
        | inr hm => exact hm
      simpa [firstIdx, hx] using ih ha

theorem uniqGo_mem : ∀ (l acc : List String) (a : String),
    a ∈ uniqGo l acc → a ∈ acc ∨ a ∈ l := by
  intro l
  induction l with
  | nil =>
    intro acc a h
    simp only [uniqGo, List.mem_reverse] at h
    exact Or.inl h
  | cons k rest ih =>
    intro acc a h
    simp only [uniqGo] at h
    by_cases hk : k ∈ acc
    · simp only [if_pos hk] at h
      cases ih acc a h with
      | inl h1 => exact Or.inl h1
      | inr h2 => exact Or.inr (List.mem_cons_of_mem k h2)
    · simp only [if_neg hk] at h
      by_cases hlen : 4 ≤ acc.length + 1
      · simp only [if_pos hlen, List.mem_reverse, List.mem_cons] at h
        cases h with
        | inl he => exact Or.inr (he ▸ List.mem_cons_self k rest)
        | inr hm => exact Or.inl hm
      · simp only [if_neg hlen] at h
        cases ih (k :: acc) a h with
        | inl h1 =>
          cases List.mem_cons.mp h1 with
          | inl he => exact Or.inr (he ▸ List.mem_cons_self k rest)
          | inr hm => exact Or.inl hm
        | inr h2 => exact Or.inr (List.mem_cons_of_mem k h2)

theorem uniqGo_length : ∀ (l acc : List String), acc.length ≤ 3 →
    (uniqGo l acc).length ≤ 4 := by
  intro l
  induction l with
  | nil =>
    intro acc h
    simpa [uniqGo] using Nat.le_trans h (by omega)
  | cons k rest ih =>
    intro acc h
    simp only [uniqGo]
    by_cases hk : k ∈ acc
    · simpa [if_pos hk] using ih acc h
    · simp only [if_neg hk]
      by_cases hlen : 4 ≤ acc.length + 1
      · simp only [if_pos hlen, List.length_reverse, List.length_cons]
        omega
      · simp only [if_neg hlen]
        exact ih (k :: acc) (by simp; omega)

theorem uniqGo_ord (full : List String) :
    ∀ (l acc pre : List String), full = pre ++ l →
    (∀ a, a ∈ acc ↔ a ∈ pre) →
    acc.Nodup →
    acc.Pairwise (fun a b => firstIdx full b < firstIdx full a) →
    (uniqGo l acc).Pairwise (fun a b => firstIdx full a < firstIdx full b) ∧
    (uniqGo l acc).Nodup := by
  intro l
  induction l with
  | nil =>
    intro acc pre _ _ hnd hord
    constructor
    · simpa [uniqGo, List.pairwise_reverse] using hord
    · simpa [uniqGo] using hnd
  | cons k rest ih =>
    intro acc pre hfull hiff hnd hord
    simp only [uniqGo]
    by_cases hk : k ∈ acc
    · simp only [if_pos hk]
      refine ih acc (pre ++ [k]) ?_ ?_ hnd hord
      · rw [hfull]; simp
      · intro a
        rw [hiff a, List.mem_append, List.mem_singleton]
        constructor
        · exact Or.inl
        · rintro (h1 | h2)
          · exact h1
          · exact h2 ▸ (hiff k).mp hk
    · have hkpre : k ∉ pre := fun h => hk ((hiff k).mpr h)
      have hkidx : firstIdx full k = pre.length := by
        rw [hfull, firstIdx_append_right pre (k :: rest) k hkpre]
        simp [firstIdx]
      have hlt : ∀ a ∈ acc, firstIdx full a < firstIdx full k := by
        intro a ha
        have hap : a ∈ pre := (hiff a).mp ha
        have h1 : firstIdx full a = firstIdx pre a := by
          rw [hfull]; exact firstIdx_append_left pre (k :: rest) a hap
        rw [h1, hkidx]
        exact firstIdx_lt_length pre a hap
      have hordk : (k :: acc).Pairwise (fun a b => firstIdx full b < firstIdx full a) :=
        List.pairwise_cons.mpr ⟨hlt, hord⟩
      have hndk : (k :: acc).Nodup := List.nodup_cons.mpr ⟨hk, hnd⟩
      by_cases hlen : 4 ≤ acc.length + 1
      · simp only [if_neg hk, if_pos hlen]
        constructor
        · rw [List.pairwise_reverse]
          exact hordk
        · rw [List.nodup_reverse]
          exact hndk
      · simp only [if_neg hk, if_neg hlen]
        refine ih (k :: acc) (pre ++ [k]) ?_ ?_ hndk hordk
        · rw [hfull]; simp
        · intro a
          rw [List.mem_cons, List.mem_append, List.mem_singleton, hiff a]
          exact or_comm

theorem extract_keywords_ord (title : String) (description : Option String) :
    (extract_keywords title description).Pairwise
      (fun a b => firstIdx (filteredTokens title description) a <
        firstIdx (filteredTokens title description) b) ∧
    (extract_keywords title description).Nodup :=
  uniqGo_ord (filteredTokens title description) (filteredTokens title description) [] []
    (by simp) (by simp) (by simp) (by simp)

theorem scanRelated_ok (seed : RawArticle) (bias : String) (kws : List String) :
    ∀ (l : List RawArticle) (rel r : List Article),
      scanRelated seed bias kws l rel = Except.ok r →
      ∃ ex, r = rel ++ ex ∧ ∀ x ∈ ex, x.bias ≠ bias := by
  intro l
  induction l with
  | nil =>
    intro rel r h
    simp only [scanRelated, Except.ok.injEq] at h
    exact ⟨[], by simp [h], by simp⟩
  | cons other rest ih =>
    intro rel r h
    simp only [scanRelated] at h
    by_cases h1 : other == seed
    · rw [if_pos h1] at h
      exact ih rel r h
    · rw [if_neg h1] at h
      by_cases h2 : (get_source_bias other.sourceId != bias && truthyS other.title) = true
      · rw [if_pos h2] at h
        have hbias : get_source_bias other.sourceId ≠ bias := by
          have := (Bool.and_eq_true _ _).mp h2 |>.1
          exact bne_iff_ne.mp this
        by_cases h3 : 2 ≤ interSize kws (extract_keywords (other.title.getD "") other.description)
        · rw [if_pos h3] at h
          cases hu : other.url with
          | none => rw [hu] at h; cases h
          | some u =>
            rw [hu] at h
            dsimp only at h
            by_cases h4 : (3 ≤ (rel ++ [mkRelArticle other u]).length &&
                3 ≤ (((rel ++ [mkRelArticle other u]).map Article.bias).dedup).length) = true
            · rw [if_pos h4, Except.ok.injEq] at h
              refine ⟨[mkRelArticle other u], h.symm, ?_⟩
              intro x hx
              rw [List.mem_singleton] at hx
              rw [hx]
              exact hbias
            · rw [if_neg h4] at h
              obtain ⟨ex, hex, hprop⟩ := ih (rel ++ [mkRelArticle other u]) r h
              refine ⟨mkRelArticle other u :: ex, by simp [hex], ?_⟩
              intro x hx
              cases List.mem_cons.mp hx with
              | inl he => exact he ▸ hbias
              | inr hm => exact hprop x hm
        · rw [if_neg h3] at h
          exact ih rel r h
      · rw [if_neg h2] at h
        exact ih rel r h

theorem mkIssue_articles (issueId : Nat) (a : RawArticle) (arts : List Article) :
    (mkIssue issueId a arts).articles = arts := rfl

theorem goodIssue_of_scan (issueId : Nat) (a : RawArticle) (related : List Article)
    (ex : List Article)
    (hrel : related = [seedArticle a] ++ ex)
    (hexb : ∀ x ∈ ex, x.bias ≠ (seedArticle a).bias)
    (h2 : 2 ≤ ((related.map Article.bias).dedup).length) :
    2 ≤ (((mkIssue issueId a (related.take 6)).articles.map Article.bias).dedup).length ∧
    (mkIssue issueId a (related.take 6)).articles.length ≤ 6 := by
  rw [mkIssue_articles]
  refine ⟨?_, List.length_take_le _ _⟩
  cases ex with
  | nil =>
    exfalso
    rw [hrel] at h2
    simp at h2
  | cons e ex' =>
    have htake : related.take 6 = seedArticle a :: e :: ex'.take 4 := by
      rw [hrel]; rfl
    rw [htake]
    exact two_bias_le_dedup _ (seedArticle a) e (List.mem_cons_self _ _)
      (List.mem_cons_of_mem _ (List.mem_cons_self _ _))
      (Ne.symm (hexb e (List.mem_cons_self _ _)))

theorem mainLoop_ok (allArts : List RawArticle) :
    ∀ (rem : List RawArticle) (seen : List (List String)) (issueId : Nat)
      (issues out : List Issue) (outId : Nat),
      mainLoop allArts rem seen issueId issues = Except.ok (out, outId) →
      ∃ tail, out = issues ++ tail ∧
        ∀ i ∈ tail, 2 ≤ ((i.articles.map Article.bias).dedup).length ∧
          i.articles.length ≤ 6 := by
  intro rem
  induction rem with
  | nil =>
    intro seen issueId issues out outId h
    simp only [mainLoop, Except.ok.injEq, Prod.mk.injEq] at h
    exact ⟨[], by simp [h.1], by simp⟩
  | cons a rest ih =>
    intro seen issueId issues out outId h
    simp only [mainLoop] at h
    by_cases hv : validRecord a = true
    · rw [if_pos hv] at h
      by_cases hs : similarSeen ((pySplit (lowerStr (a.title.getD ""))).take 5).dedup seen = true
      · rw [if_pos hs] at h
        exact ih _ _ _ _ _ h
      · rw [if_neg hs] at h
        cases hscan : scanRelated a (get_source_bias a.sourceId)
            (extract_keywords (a.title.getD "") a.description) allArts [seedArticle a] with
        | error e =>
          rw [hscan] at h
          dsimp only at h
          cases h
        | ok related =>
          rw [hscan] at h
          dsimp only at h
          obtain ⟨ex, hrel, hexb⟩ :=
            scanRelated_ok a (get_source_bias a.sourceId)
              (extract_keywords (a.title.getD "") a.description) allArts [seedArticle a]
              related hscan
          by_cases h2 : 2 ≤ ((related.map Article.bias).dedup).length
          · rw [if_pos h2] at h
            have hgood := goodIssue_of_scan issueId a related ex hrel hexb h2
            by_cases h10 : 10 ≤ (issues ++ [mkIssue issueId a (related.take 6)]).length
            · rw [if_pos h10, Except.ok.injEq, Prod.mk.injEq] at h
              refine ⟨[mkIssue issueId a (related.take 6)], h.1.symm, ?_⟩
              intro i hi
              rw [List.mem_singleton] at hi
              exact hi ▸ hgood
            · rw [if_neg h10] at h
              obtain ⟨tail', htail', hprop'⟩ := ih _ _ _ _ _ h
              refine ⟨mkIssue issueId a (related.take 6) :: tail', by rw [htail']; simp, ?_⟩
              intro i hi
              cases List.mem_cons.mp hi with
              | inl he => exact he ▸ hgood
              | inr hm => exact hprop' i hm
          · rw [if_neg h2] at h
            exact ih _ _ _ _ _ h
    · rw [if_neg hv] at h
      exact ih _ _ _ _ _ h

theorem fallbackArticles_good (a : RawArticle) :
    2 ≤ (((fallbackArticles a).map Article.bias).dedup).length ∧
    (fallbackArticles a).length ≤ 6 := by
  constructor
  · by_cases hL : get_source_bias a.sourceId = "left"
    · refine two_bias_le_dedup _
        (placeholderArticle "Balanced" (topicOf a) "Centrist Source" "center" (a.url.getD none))
        (placeholderArticle "Right" (topicOf a) "Right-leaning Source" "right" (a.url.getD none))
        ?_ ?_ ?_
      · simp [fallbackArticles, hL]
      · simp [fallbackArticles, hL]
      · simp [placeholderArticle]
    · refine two_bias_le_dedup _ (seedArticle a)
        (placeholderArticle "Left" (topicOf a) "Left-leaning Source" "left" (a.url.getD none))
        ?_ ?_ ?_
      · simp [fallbackArticles]
      · have h1 : (get_source_bias a.sourceId != "left") = true := bne_iff_ne.mpr hL
        simp [fallbackArticles, h1]
      · simpa [seedArticle, placeholderArticle] using hL
  · by_cases h1 : (get_source_bias a.sourceId != "left") = true <;>
      by_cases h2 : (get_source_bias a.sourceId != "center") = true <;>
      by_cases h3 : (get_source_bias a.sourceId != "right") = true <;>
      simp [fallbackArticles, h1, h2, h3]

theorem fallbackLoop_ok :
    ∀ (l : List RawArticle) (issueId : Nat) (issues : List Issue),
      ∃ tail, fallbackLoop l issueId issues = issues ++ tail ∧
        ∀ i ∈ tail, 2 ≤ ((i.articles.map Article.bias).dedup).length ∧
          i.articles.length ≤ 6 := by
  intro l
  induction l with
  | nil =>
    intro issueId issues
    exact ⟨[], by simp [fallbackLoop], by simp⟩
  | cons a rest ih =>
    intro issueId issues
    simp only [fallbackLoop]
    by_cases hv : validRecord a = true
    · rw [if_pos hv]
      have hgood : 2 ≤ (((fallbackIssue issueId a).articles.map Article.bias).dedup).length ∧
          (fallbackIssue issueId a).articles.length ≤ 6 := fallbackArticles_good a
      by_cases h8 : 8 ≤ (issues ++ [fallbackIssue issueId a]).length
      · rw [if_pos h8]
        refine ⟨[fallbackIssue issueId a], rfl, ?_⟩
        intro i hi
        rw [List.mem_singleton] at hi
        exact hi ▸ hgood
      · rw [if_neg h8]
        obtain ⟨tail', ht, hp⟩ := ih (issueId + 1) (issues ++ [fallbackIssue issueId a])
        refine ⟨fallbackIssue issueId a :: tail', by rw [ht]; simp, ?_⟩
        intro i hi
        cases List.mem_cons.mp hi with
        | inl he => exact he ▸ hgood
        | inr hm => exact hp i hm
    · rw [if_neg hv]
      exact ih issueId issues

theorem mainLoop_len (allArts : List RawArticle) :
    ∀ (rem : List RawArticle) (seen : List (List String)) (issueId : Nat)
      (issues out : List Issue) (outId : Nat),
      issues.length ≤ 9 →
      mainLoop allArts rem seen issueId issues = Except.ok (out, outId) →
      out.length ≤ 10 := by
  intro rem
  induction rem with
  | nil =>
    intro seen issueId issues out outId hlen h
    simp only [mainLoop, Except.ok.injEq, Prod.mk.injEq] at h
    rw [← h.1]
    omega
  | cons a rest ih =>
    intro seen issueId issues out outId hlen h
    simp only [mainLoop] at h
    by_cases hv : validRecord a = true
    · rw [if_pos hv] at h
      by_cases hs : similarSeen ((pySplit (lowerStr (a.title.getD ""))).take 5).dedup seen = true
      · rw [if_pos hs] at h
        exact ih _ _ _ _ _ hlen h
      · rw [if_neg hs] at h
        cases hscan : scanRelated a (get_source_bias a.sourceId)
            (extract_keywords (a.title.getD "") a.description) allArts [seedArticle a] with
        | error e =>
          rw [hscan] at h
          dsimp only at h
          cases h
        | ok related =>
          rw [hscan] at h
          dsimp only at h
          by_cases h2 : 2 ≤ ((related.map Article.bias).dedup).length
          · rw [if_pos h2] at h
            by_cases h10 : 10 ≤ (issues ++ [mkIssue issueId a (related.take 6)]).length
            · rw [if_pos h10, Except.ok.injEq, Prod.mk.injEq] at h
              rw [← h.1]
              simp
              omega
            · rw [if_neg h10] at h
              refine ih _ _ _ _ _ ?_ h
              simp at h10 ⊢
              omega
          · rw [if_neg h2] at h
            exact ih _ _ _ _ _ hlen h
    · rw [if_neg hv] at h
      exact ih _ _ _ _ _ hlen h

theorem fallbackLoop_len :
    ∀ (l : List RawArticle) (issueId : Nat) (issues : List Issue),
      issues.length ≤ 7 → (fallbackLoop l issueId issues).length ≤ 8 := by
  intro l
  induction l with
  | nil =>
    intro issueId issues hlen
    simp only [fallbackLoop]
    omega
  | cons a rest ih =>
    intro issueId issues hlen
    simp only [fallbackLoop]
    by_cases hv : validRecord a = true
    · rw [if_pos hv]
      by_cases h8 : 8 ≤ (issues ++ [fallbackIssue issueId a]).length
      · rw [if_pos h8]
        simp
        omega
      · rw [if_neg h8]
        refine ih _ _ ?_
        simp at h8 ⊢
        omega
    · rw [if_neg hv]
      exact ih _ _ hlen

theorem mainLoop_skip (allArts : List RawArticle) :
    ∀ (rem : List RawArticle) (seen : List (List String)) (issueId : Nat)
      (issues : List Issue),
      (∀ a ∈ rem, validRecord a = false) →
      mainLoop allArts rem seen issueId issues = Except.ok (issues, issueId) := by
  intro rem
  induction rem with
  | nil => intro seen issueId issues _; rfl
  | cons a rest ih =>
    intro seen issueId issues h
    have hv : validRecord a = false := h a (List.mem_cons_self a rest)
    simp only [mainLoop, hv]
    exact ih seen issueId issues (fun b hb => h b (List.mem_cons_of_mem a hb))

theorem fallbackLoop_skip :
    ∀ (l : List RawArticle) (issueId : Nat) (issues : List Issue),
      (∀ a ∈ l, validRecord a = false) →
      fallbackLoop l issueId issues = issues := by
  intro l
  induction l with
  | nil => intro issueId issues _; rfl
  | cons a rest ih =>
    intro issueId issues h
    have hv : validRecord a = false := h a (List.mem_cons_self a rest)
    simp only [fallbackLoop, hv]
    exact ih issueId issues (fun b hb => h b (List.mem_cons_of_mem a hb))

theorem fetch_good (batch : List RawArticle) (issues : List Issue)
    (h : fetch_real_news_pure batch = Except.ok issues) :
    ∀ i ∈ issues, 2 ≤ ((i.articles.map Article.bias).dedup).length ∧
      i.articles.length ≤ 6 := by
  unfold fetch_real_news_pure at h
  cases hm : mainLoop batch batch [] 1 [] with
  | error e =>
    rw [hm] at h
    cases h
  | ok p =>
    obtain ⟨is, nid⟩ := p
    rw [hm] at h
    dsimp only at h
    obtain ⟨tailM, htM, hpM⟩ := mainLoop_ok batch batch [] 1 [] is nid hm
    simp only [List.nil_append] at htM
    by_cases h5 : is.length < 5
    · rw [if_pos h5, Except.ok.injEq] at h
      subst h
      obtain ⟨tailF, htF, hpF⟩ := fallbackLoop_ok (batch.take 15) nid is
      rw [htF]
      intro i hi
      cases List.mem_append.mp hi with
      | inl h1 => exact hpM i (htM ▸ h1)
      | inr h2 => exact hpF i h2
    · rw [if_neg h5, Except.ok.injEq] at h
      subst h
      intro i hi
      exact hpM i (htM ▸ hi)

theorem fetch_len (batch : List RawArticle) (issues : List Issue)
    (h : fetch_real_news_pure batch = Except.ok issues) :
    issues.length ≤ 10 := by
  unfold fetch_real_news_pure at h
  cases hm : mainLoop batch batch [] 1 [] with
  | error e =>
    rw [hm] at h
    cases h
  | ok p =>
    obtain ⟨is, nid⟩ := p
    rw [hm] at h
    dsimp only at h
    have hlen : is.length ≤ 10 := mainLoop_len batch batch [] 1 [] is nid (by simp) hm
    by_cases h5 : is.length < 5
    · rw [if_pos h5, Except.ok.injEq] at h
      subst h
      have := fallbackLoop_len (batch.take 15) nid is (by omega)
      omega
    · rw [if_neg h5, Except.ok.injEq] at h
      subst h
      exact hlen

theorem fetch_all_invalid (batch : List RawArticle)
    (h : ∀ a ∈ batch, validRecord a = false) :
    fetch_real_news_pure batch = Except.ok [] := by
  unfold fetch_real_news_pure
  rw [mainLoop_skip batch batch [] 1 [] h]
  dsimp only
  rw [if_pos (by simp)]
  rw [fallbackLoop_skip (batch.take 15) 1 []
    (fun a ha => h a (List.take_subset 15 batch ha))]

/-! Claim theorems. -/

/-- C1: every issue emitted by the clustering pass (issues of the synthetic
fallback pass included) has articles whose set of distinct bias values has
cardinality at least 2, for every input batch. -/
theorem c1_every_issue_spans_two_biases (batch : List RawArticle)
    (issues : List Issue) (h : fetch_real_news_pure batch = Except.ok issues) :
    ∀ i ∈ issues, 2 ≤ ((i.articles.map Article.bias).dedup).length :=
  fun i hi => (fetch_good batch issues h i hi).1

/-- C1 witness: the invariant evaluated on the first issue emitted for the
concrete scenario batch. -/
theorem c1_witness :
    2 ≤ (((((fetch_real_news_pure scenarioBatch).toOption.getD []).headD
      emptyIssue).articles.map Article.bias).dedup).length :=
  c1_every_issue_spans_two_biases scenarioBatch
    ((fetch_real_news_pure scenarioBatch).toOption.getD []) rfl
    (((fetch_real_news_pure scenarioBatch).toOption.getD []).headD emptyIssue)
    (headD_mem _ _ (by decide))

/-- C2 counterexample: the scenario batch makes the clusterer emit issues,
and the emitted issue records carry no `biases_covered` key — their key list
is exactly `id, headline, keywords, articles`. -/
theorem c2_counterexample :
    ((fetch_real_news_pure scenarioBatch).toOption.getD []) ≠ [] ∧
    "biases_covered" ∉
      (((fetch_real_news_pure scenarioBatch).toOption.getD []).headD emptyIssue).keys :=
  ⟨by decide, by decide⟩

/-- C2 amended: every emitted issue record carries exactly the fields
`id, headline, keywords, articles` and no `biases_covered` field; the set of
distinct bias values of its articles nonetheless has cardinality at least
two. -/
theorem c2_amended_issue_fields (batch : List RawArticle) (issues : List Issue)
    (h : fetch_real_news_pure batch = Except.ok issues) :
    ∀ i ∈ issues, i.keys = ["id", "headline", "keywords", "articles"] ∧
      "biases_covered" ∉ i.keys ∧
      2 ≤ ((i.articles.map Article.bias).dedup).length :=
  fun i hi => ⟨rfl, by simp [Issue.keys], (fetch_good batch issues h i hi).1⟩

/-- C2 witness: the amended statement evaluated on the first issue emitted
for the concrete scenario batch. -/
theorem c2_witness :
    (((fetch_real_news_pure scenarioBatch).toOption.getD []).headD emptyIssue).keys =
      ["id", "headline", "keywords", "articles"] ∧
    "biases_covered" ∉
      (((fetch_real_news_pure scenarioBatch).toOption.getD []).headD emptyIssue).keys ∧
    2 ≤ (((((fetch_real_news_pure scenarioBatch).toOption.getD []).headD
      emptyIssue).articles.map Article.bias).dedup).length :=
  c2_amended_issue_fields scenarioBatch
    ((fetch_real_news_pure scenarioBatch).toOption.getD []) rfl
    (((fetch_real_news_pure scenarioBatch).toOption.getD []).headD emptyIssue)
    (headD_mem _ _ (by decide))

/-- C3 counterexample: `extract_keywords` returns the token `says`, which
belongs to the stop-word set of the spec; the stop-word set in the code omits
`says`, `said`, `new` and `news`. -/
theorem c3_counterexample :
    extract_keywords "says" none = ["says"] ∧ "says" ∈ specStopWords :=
  ⟨rfl, by decide⟩

/-- C3 amended: every token returned by `extract_keywords` has length
strictly greater than 3, is not a member of the stop-word set of the code, is
purely alphabetic, appears at most once, and the returned tokens are ordered
by first occurrence in the filtered token stream of the concatenated
lowercased text. -/
theorem c3_amended_keyword_purity (title : String) (description : Option String) :
    (∀ kw ∈ extract_keywords title description,
      3 < kw.length ∧ kw ∉ stop_words ∧ isAlphaStr kw = true) ∧
    (extract_keywords title description).Nodup ∧
    (extract_keywords title description).Pairwise
      (fun a b => firstIdx (filteredTokens title description) a <
        firstIdx (filteredTokens title description) b) := by
  refine ⟨?_, (extract_keywords_ord title description).2,
    (extract_keywords_ord title description).1⟩
  intro kw hkw
  have hmem : kw ∈ filteredTokens title description := by
    cases uniqGo_mem (filteredTokens title description) [] kw hkw with
    | inl h => cases h
    | inr h => exact h
  simp only [filteredTokens] at hmem
  have hp : keepWord kw = true := List.of_mem_filter hmem
  simp only [keepWord, Bool.and_eq_true, decide_eq_true_eq, Bool.not_eq_true',
    decide_eq_false_iff_not] at hp
  exact ⟨hp.1.1, hp.1.2, hp.2⟩

/-- C4 counterexample: on the spec example, `extract_keywords` does not
return the sequence claimed by the spec — the tokens `cat`, `sat`, `mat` all
have length 3 and the filter keeps only tokens of length strictly greater
than 3. -/
theorem c4_counterexample :
    extract_keywords "The Cat Sat on the Mat" (some "") ≠ ["cat", "sat", "mat"] := by
  decide

/-- C4 amended: `extract_keywords` on the title of the spec example with an
empty description returns the empty sequence. -/
theorem c4_amended_value :
    extract_keywords "The Cat Sat on the Mat" (some "") = [] := by rfl

/-- C5 counterexample: on a batch of two records with the same URL `u1` and
titles overlapping in only two of the first five words, the first emitted
issue retains both records — the second record with a duplicate URL is not
collapsed. -/
theorem c5_counterexample :
    (((fetch_real_news_pure c5batch).toOption.getD []).headD emptyIssue).articles.map
      Article.url = [some "u1", some "u1"] ∧
    (((fetch_real_news_pure c5batch).toOption.getD []).headD emptyIssue).articles.map
      Article.title = ["alpha bravo charlie delta", "alpha bravo echo foxtrot"] :=
  ⟨rfl, rfl⟩

/-- C5 amended: duplicate URLs are not collapsed: deduplication works on
title words only, so a batch exists (witnessed by `c5batch`) whose first
emitted issue contains two distinct articles carrying the same URL. -/
theorem c5_amended_url_not_dedup_key :
    ((((fetch_real_news_pure c5batch).toOption.getD []).headD emptyIssue).articles.filter
      (fun a => a.url == some "u1")).length = 2 ∧
    ((((fetch_real_news_pure c5batch).toOption.getD []).headD emptyIssue).articles.map
      Article.title).Nodup :=
  ⟨rfl, by decide⟩

/-- C6: the bias filter returns exactly the left-and-center articles for
preference -1, exactly the right-and-center articles for preference 1, the
untouched article list for preference 0, and each result is a subsequence of
the article list in original order. -/
theorem c6_bias_filter (arts : List Article) :
    get_articles_by_bias ⟨some arts⟩ (-1) =
      Except.ok (arts.filter (fun a => ["left", "center"].contains a.bias)) ∧
    get_articles_by_bias ⟨some arts⟩ 1 =
      Except.ok (arts.filter (fun a => ["right", "center"].contains a.bias)) ∧
    get_articles_by_bias ⟨some arts⟩ 0 = Except.ok arts ∧
    (arts.filter (fun a => ["left", "center"].contains a.bias)).Sublist arts ∧
    (arts.filter (fun a => ["right", "center"].contains a.bias)).Sublist arts :=
  ⟨rfl, rfl, rfl, List.filter_sublist arts, List.filter_sublist arts⟩

/-- C7 counterexample: the bias filter applied to an issue without an
`articles` key raises `KeyError` instead of returning an empty sequence. -/
theorem c7_counterexample :
    get_articles_by_bias ⟨none⟩ 0 = Except.error "KeyError: articles" ∧
    (Except.error "KeyError: articles" : Except String (List Article)) ≠
      Except.ok ([] : List Article) :=
  ⟨rfl, fun h => Except.noConfusion h⟩

/-- C7 amended: the bias filter applied to an issue with an empty article
list returns the empty sequence without error for every preference, but
applied to an issue whose `articles` field is absent it raises `KeyError`. -/
theorem c7_amended_validation (pref : Int) :
    get_articles_by_bias ⟨some []⟩ pref = Except.ok [] ∧
    get_articles_by_bias ⟨none⟩ pref = Except.error "KeyError: articles" := by
  refine ⟨?_, rfl⟩
  by_cases h1 : pref = -1
  · simp [get_articles_by_bias, h1]
  · by_cases h2 : pref = 1
    · simp [get_articles_by_bias, h1, h2]
    · simp [get_articles_by_bias, h1, h2]

/-- C8: no emitted issue has more than 6 articles and no fetch cycle emits
more than 10 issues. -/
theorem c8_caps (batch : List RawArticle) (issues : List Issue)
    (h : fetch_real_news_pure batch = Except.ok issues) :
    issues.length ≤ 10 ∧ ∀ i ∈ issues, i.articles.length ≤ 6 :=
  ⟨fetch_len batch issues h, fun i hi => (fetch_good batch issues h i hi).2⟩

/-- C8 witness: the issue-count cap evaluated on the concrete scenario
batch. -/
theorem c8_witness :
    ((fetch_real_news_pure scenarioBatch).toOption.getD []).length ≤ 10 :=
  (c8_caps scenarioBatch ((fetch_real_news_pure scenarioBatch).toOption.getD []) rfl).1

/-- C9 counterexample: a batch whose second record is malformed (it has a
title and matching keywords but no `url` key) makes the clustering pass raise
`KeyError` instead of dropping the record silently. -/
theorem c9_counterexample :
    fetch_real_news_pure c9batch = Except.error "KeyError: url" ∧
    c9batch.map validRecord = [true, false] :=
  ⟨rfl, rfl⟩

/-- C9 amended: when the input batch is empty or every record lacks a
non-empty title or URL, the clusterer returns the empty issue sequence
without raising. -/
theorem c9_amended_empty_or_malformed (batch : List RawArticle)
    (h : ∀ a ∈ batch, validRecord a = false) :
    fetch_real_news_pure batch = Except.ok [] :=
  fetch_all_invalid batch h

/-- C9 witness: the amended statement evaluated on a concrete batch of three
malformed records. -/
theorem c9_witness :
    fetch_real_news_pure malformedBatch = Except.ok [] :=
  c9_amended_empty_or_malformed malformedBatch (by
    intro a ha
    simp only [malformedBatch, List.mem_cons, List.mem_singleton, List.not_mem_nil,
      or_false] at ha
    rcases ha with h | h | h <;> subst h <;> rfl)

/-- C10: `extract_keywords` itself returns at most 4 tokens for every
input — the cap is part of the extractor. -/
theorem c10_keyword_cap (title : String) (description : Option String) :
    (extract_keywords title description).length ≤ 4 :=
  uniqGo_length (filteredTokens title description) [] (by simp)
